import Mathlib

/-!
Shallow embedding of the multi-server TDX connection pool
(`src/app/connection/pool.py`) and the client facade
(`src/app/connection/client.py`).

Python dictionaries keyed by server ip are modelled as association lists
`List (String × β)`; `queue.Queue` instances are modelled as FIFO lists
(front of the Lean list = front of the queue); wall-clock time
(`time.time()`) is passed explicitly as a `Nat` argument wherever the
Python code reads the clock; network effects (`TdxHq_API.connect`,
`_test_connection`) are modelled as explicit oracles passed to the
functions that perform them.  Python objects that flow through the pool
(connections, tuples, None) are modelled by the `PyVal` type, since
`queue.Queue` is untyped.
-/

namespace TdxMcp

/-- A server descriptor: the `{"ip": ..., "port": ..., "name": ...}` dicts
of `TDX_SERVERS`. -/
structure Server where
  ip : String
  port : Nat
  name : String
deriving DecidableEq, Repr

/-- `ServerStatus` constants from `pool.py`. -/
inductive ServerStatus where
  | healthy
  | unhealthy
  | unknown
deriving DecidableEq, Repr

/-- One entry of `TDXConnectionPool._server_status`:
`{"status": ..., "fail_count": ..., "last_fail_time": ..., "last_success_time": ...}`. -/
structure ServerHealth where
  status : ServerStatus
  failCount : Nat
  lastFailTime : Nat
  lastSuccessTime : Nat
deriving DecidableEq, Repr

/-- Python runtime values that can be stored in a pool queue or passed to an
operation: `None`, a `TdxHq_API` connection (identified by a numeric id),
a 2-tuple, a server dict, or an opaque data value. -/
inductive PyVal where
  | pynone
  | conn (id : Nat)
  | tup (fst snd : PyVal)
  | srv (s : Server)
  | val (n : Nat)
deriving DecidableEq, Repr

/-- Association-list lookup, modelling Python `dict.get` /  `dict[...]`. -/
def lookupA (k : String) : List (String × β) → Option β
  | [] => none
  | (k₀, v) :: rest => if k₀ = k then some v else lookupA k rest

/-- Update the value stored at key `k` (no-op when `k` is absent, which
models the `if ip in ...` guards of `pool.py`). -/
def setAssoc (k : String) (g : β → β) : List (String × β) → List (String × β)
  | [] => []
  | (k₀, v) :: rest =>
    if k₀ = k then (k₀, g v) :: setAssoc k g rest else (k₀, v) :: setAssoc k g rest

/-- The mutable state of a `TDXConnectionPool` instance: configuration
fields, the current primary index, the health registry and the per-server
queues (`__init__`, `pool.py`). -/
structure PoolState where
  servers : List Server
  maxConnections : Nat
  connectTimeout : Nat
  retryTimes : Nat
  healthCheckInterval : Nat
  unhealthyThreshold : Nat
  recoveryTime : Nat
  currentServerIndex : Nat
  serverStatus : List (String × ServerHealth)
  pools : List (String × List PyVal)
deriving Repr

/-- `TDXConnectionPool.__init__` before warm-up: every registered server
starts `UNKNOWN` with zeroed counters and an empty queue of capacity
`max_connections`. -/
def initialPoolState (servers : List Server) (maxConnections connectTimeout retryTimes
    healthCheckInterval unhealthyThreshold recoveryTime : Nat) : PoolState where
  servers := servers
  maxConnections := maxConnections
  connectTimeout := connectTimeout
  retryTimes := retryTimes
  healthCheckInterval := healthCheckInterval
  unhealthyThreshold := unhealthyThreshold
  recoveryTime := recoveryTime
  currentServerIndex := 0
  serverStatus := servers.map (fun s => (s.ip, ⟨ServerStatus.unknown, 0, 0, 0⟩))
  pools := servers.map (fun s => (s.ip, []))

/-- `TDXConnectionPool._mark_server_healthy` (pool.py lines 133-139). -/
def markServerHealthy (st : PoolState) (ip : String) (now : Nat) : PoolState :=
  { st with
      serverStatus := setAssoc ip
        (fun h => { h with status := ServerStatus.healthy, failCount := 0, lastSuccessTime := now })
        st.serverStatus }

/-- The per-entry effect of `_mark_server_failed`: increment `fail_count`,
stamp `last_fail_time`, and flip to `UNHEALTHY` once the counter reaches
`unhealthy_threshold`. -/
def failOnce (threshold now : Nat) (h : ServerHealth) : ServerHealth :=
  let h₁ := { h with failCount := h.failCount + 1, lastFailTime := now }
  if threshold ≤ h₁.failCount then { h₁ with status := ServerStatus.unhealthy } else h₁

/-- `TDXConnectionPool._mark_server_failed` (pool.py lines 141-150). -/
def markServerFailed (st : PoolState) (ip : String) (now : Nat) : PoolState :=
  { st with serverStatus := setAssoc ip (failOnce st.unhealthyThreshold now) st.serverStatus }

/-- `TDXConnectionPool._is_server_available` (pool.py lines 152-161): a
server is unavailable only when it is `UNHEALTHY` and its cool-down window
has not yet elapsed.  A server with no registry entry is available (the
Python code reads `dict.get(ip, {})`). -/
def isServerAvailable (st : PoolState) (ip : String) (now : Nat) : Bool :=
  match lookupA ip st.serverStatus with
  | none => true
  | some h =>
    if h.status = ServerStatus.unhealthy then
      if (now : Int) - (h.lastFailTime : Int) < (st.recoveryTime : Int) then false else true
    else true

/-- `TDXConnectionPool._get_available_servers` (pool.py lines 163-182):
current primary first when available, then every other available server in
registration order; when that list is empty, fall back to the whole server
list (forced retry).  The `none` branch of the index lookup corresponds to
an `IndexError` in Python and is unreachable while the index is in range. -/
def getAvailableServers (st : PoolState) (now : Nat) : List Server :=
  match st.servers[st.currentServerIndex]? with
  | none => st.servers
  | some current =>
    let first := if isServerAvailable st current.ip now then [current] else []
    let rest := st.servers.filter
      (fun s => decide (s.ip ≠ current.ip) && isServerAvailable st s.ip now)
    let available := first ++ rest
    if available.isEmpty then st.servers else available

/-- The inner `for i, s in enumerate(self.servers): if s["ip"] == server["ip"]`
loop of `get_connection` (pool.py lines 237-241): index of the first server
with the given ip. -/
def findIpIdx (ip : String) : List Server → Option Nat
  | [] => none
  | s :: rest => if s.ip = ip then some 0 else (findIpIdx ip rest).map (· + 1)

/-- The `for attempt in range(self.retry_times)` creation loop of
`get_connection` (pool.py lines 232-246).  `connect ip k` is the oracle for
the outcome of `_create_connection_to_server` on attempt `k`; the second
component records every attempt made, as `(ip, attempt)` pairs. -/
def tryCreateAux (connect : String → Nat → Option Nat) (ip : String) :
    Nat → Nat → Option Nat × List (String × Nat)
  | _, 0 => (none, [])
  | k, fuel + 1 =>
    match connect ip k with
    | some c => (some c, [(ip, k)])
    | none =>
      let r := tryCreateAux connect ip (k + 1) fuel
      (r.1, (ip, k) :: r.2)

def tryCreate (connect : String → Nat → Option Nat) (ip : String) (retry : Nat) :
    Option Nat × List (String × Nat) :=
  tryCreateAux connect ip 0 retry

/-- The creation phase of `get_connection` for one candidate server
(pool.py lines 232-249): up to `retry_times` attempts; on success mark the
server healthy and point the primary index at it (`fresh = true` in the
result); on exhaustion record one failure.  Result: `(some (api, fresh) |
none, state, attempt trace)`. -/
def createForServer (st : PoolState) (server : Server) (now : Nat)
    (connect : String → Nat → Option Nat) :
    Option (PyVal × Bool) × PoolState × List (String × Nat) :=
  let r := tryCreate connect server.ip st.retryTimes
  match r.1 with
  | some c =>
    let st₁ := markServerHealthy st server.ip now
    let st₂ :=
      match findIpIdx server.ip st₁.servers with
      | some i => { st₁ with currentServerIndex := i }
      | none => st₁
    (some (PyVal.conn c, true), st₂, r.2)
  | none => (none, markServerFailed st server.ip now, r.2)

/-- The body of `get_connection`'s candidate loop for one server (pool.py
lines 211-249): draw one idle connection if the queue is non-empty and probe
it with `_test_connection` (oracle `testOk`); a valid drawn connection is
returned with `fresh = false`; an invalid one is disconnected and control
falls through to the creation phase. -/
def getConnStep (st : PoolState) (server : Server) (now : Nat)
    (testOk : PyVal → Bool) (connect : String → Nat → Option Nat) :
    Option (PyVal × Bool) × PoolState × List (String × Nat) :=
  match lookupA server.ip st.pools with
  | some (a :: restQ) =>
    let st₁ := { st with pools := setAssoc server.ip (fun _ => restQ) st.pools }
    if testOk a then (some (a, false), markServerHealthy st₁ server.ip now, [])
    else createForServer st₁ server now connect
  | _ => createForServer st server now connect

/-- `get_connection`'s walk over the candidate list. -/
def getConnectionAux (now : Nat) (testOk : PyVal → Bool)
    (connect : String → Nat → Option Nat) :
    PoolState → List Server → Option (PyVal × Server × Bool) × PoolState × List (String × Nat)
  | st, [] => (none, st, [])
  | st, server :: rest =>
    let r := getConnStep st server now testOk connect
    match r.1 with
    | some (a, fresh) => (some (a, server, fresh), r.2.1, r.2.2)
    | none =>
      let r₂ := getConnectionAux now testOk connect r.2.1 rest
      (r₂.1, r₂.2.1, r.2.2 ++ r₂.2.2)

/-- `TDXConnectionPool.get_connection` (pool.py lines 202-252).  The result
carries the Python return value (`(api, server)`, or `(None, None)` when
`none`), plus a flag recording whether the returned connection was freshly
created (creation phase) rather than reused from a pool, the new pool
state, and the trace of creation attempts. -/
def getConnection (st : PoolState) (now : Nat) (testOk : PyVal → Bool)
    (connect : String → Nat → Option Nat) :
    Option (PyVal × Server × Bool) × PoolState × List (String × Nat) :=
  getConnectionAux now testOk connect st (getAvailableServers st now)

/-- What `return_connection` did with the object handed to it. -/
inductive ReleaseAction where
  | ignored
  | queued
  | discarded
deriving DecidableEq, Repr

/-- `queue.Queue.full()`: a queue with `maxsize <= 0` is never full. -/
def queueFull (maxSize qlen : Nat) : Bool :=
  decide (0 < maxSize) && decide (maxSize ≤ qlen)

/-- The `server["ip"] if server else self.server["ip"]` expression of
`return_connection`; `none` corresponds to an `IndexError` on
`self.server`, unreachable while the primary index is in range. -/
def releaseIp (st : PoolState) (server : Option Server) : Option String :=
  match server with
  | some s => some s.ip
  | none => (st.servers[st.currentServerIndex]?).map Server.ip

/-- `TDXConnectionPool.return_connection` (pool.py lines 263-283): a `None`
api is ignored; otherwise the target ip is the given server's, defaulting
to the current primary's; the object is queued when that ip has a non-full
pool and disconnected (`discarded`) otherwise. -/
def returnConnection (st : PoolState) (api : Option PyVal) (server : Option Server) :
    PoolState × ReleaseAction :=
  match api with
  | none => (st, ReleaseAction.ignored)
  | some a =>
    match releaseIp st server with
    | none => (st, ReleaseAction.ignored)
    | some ip =>
      match lookupA ip st.pools with
      | some q =>
        if queueFull st.maxConnections q.length then (st, ReleaseAction.discarded)
        else ({ st with pools := setAssoc ip (fun q₀ => q₀ ++ [a]) st.pools },
              ReleaseAction.queued)
      | none => (st, ReleaseAction.discarded)

/-- One iteration of the `for server in self.servers` loop of
`_do_health_check` (pool.py lines 295-321).  `connect ip` is the oracle for
the one `_create_connection_to_server` attempt this pass may make for the
server; the second component records the ips for which an attempt was made.
The blocking `put` of the recovery branch is modelled as an enqueue. -/
def healthStep (now : Nat) (connect : String → Option Nat) (st : PoolState)
    (server : Server) : PoolState × List String :=
  match lookupA server.ip st.serverStatus with
  | none => (st, [])
  | some h =>
    if h.status = ServerStatus.unhealthy then
      if (st.recoveryTime : Int) ≤ (now : Int) - (h.lastFailTime : Int) then
        match connect server.ip with
        | some c =>
          let st₁ := markServerHealthy st server.ip now
          ({ st₁ with pools := setAssoc server.ip (fun q => q ++ [PyVal.conn c]) st₁.pools },
           [server.ip])
        | none => (st, [server.ip])
      else (st, [])
    else if h.status = ServerStatus.healthy then
      match lookupA server.ip st.pools with
      | none => (st, [])
      | some q =>
        if q.length < 2 then
          match connect server.ip with
          | some c =>
            if queueFull st.maxConnections q.length then (st, [server.ip])
            else ({ st with pools := setAssoc server.ip (fun q₀ => q₀ ++ [PyVal.conn c]) st.pools },
                  [server.ip])
          | none => (st, [server.ip])
        else (st, [])
    else (st, [])

/-- The `for server in self.servers` loop of `_do_health_check`, threading
the state through the per-server steps and concatenating the attempt
traces. -/
def doHealthCheckAux (now : Nat) (connect : String → Option Nat) :
    PoolState → List Server → PoolState × List String
  | st, [] => (st, [])
  | st, server :: rest =>
    let r := healthStep now connect st server
    let r₂ := doHealthCheckAux now connect r.1 rest
    (r₂.1, r.2 ++ r₂.2)

/-- `TDXConnectionPool._do_health_check` (pool.py lines 295-321): one
maintenance pass over all registered servers, with the trace of connection
attempts made. -/
def doHealthCheck (st : PoolState) (now : Nat) (connect : String → Option Nat) :
    PoolState × List String :=
  doHealthCheckAux now connect st st.servers

/-- Outcome of one `TDXClient._with_connection` call: the value returned to
the caller, the pool state afterwards, the value of the `created` flag, and
the object passed to `return_connection` in the `finally` block (if any). -/
structure FacadeResult where
  result : Option PyVal
  state : PoolState
  created : Bool
  released : Option PyVal
deriving Repr

/-- `TDXClient._with_connection` (client.py lines 37-70).  `f` models the
wrapped operation: it receives exactly the Python value bound to `api` and
either returns a value or raises (`Except.error`).  `clientConnect` is the
oracle for the direct `TdxHq_API().connect(...)` of the degraded one-shot
branch.  Note the faithful detail: `api` is bound to the *tuple* returned
by `tdx_connection_pool.get_connection()`, so `created = api is None`
compares that tuple with `None`. -/
def withConnection (st : PoolState) (now : Nat) (testOk : PyVal → Bool)
    (connect : String → Nat → Option Nat) (clientConnect : Option Nat)
    (f : PyVal → Except Unit PyVal) : FacadeResult :=
  let g := getConnection st now testOk connect
  let apiVal : PyVal :=
    match g.1 with
    | some (a, server, _) => PyVal.tup a (PyVal.srv server)
    | none => PyVal.tup PyVal.pynone PyVal.pynone
  let st₁ := g.2.1
  let created := decide (apiVal = PyVal.pynone)
  if created then
    match clientConnect with
    | none => { result := none, state := st₁, created := created, released := none }
    | some c =>
      let r := f (PyVal.conn c)
      let result := match r with | Except.ok v => some v | Except.error _ => none
      { result := result, state := st₁, created := created, released := none }
  else
    let r := f apiVal
    let result := match r with | Except.ok v => some v | Except.error _ => none
    let ret := returnConnection st₁ (some apiVal) none
    { result := result, state := ret.1, created := created, released := some apiVal }

/-! ### Shared sample fixtures used by the witnesses -/

def sampA : Server := ⟨"a", 1, "A"⟩

def sampB : Server := ⟨"b", 2, "B"⟩

def sampInit : PoolState := initialPoolState [sampA, sampB] 5 3 3 60 3 300

def sampUnhealthy : ServerHealth := ⟨ServerStatus.unhealthy, 3, 100, 0⟩

/-- Both servers unhealthy, last failure at t=100, recovery window 300s. -/
def sampStCool : PoolState :=
  { sampInit with serverStatus := [("a", sampUnhealthy), ("b", sampUnhealthy)] }

/-- Every per-server pool holds at most `max_connections` idle objects. -/
def poolBoundInv (st : PoolState) : Prop :=
  ∀ ip q, lookupA ip st.pools = some q → q.length ≤ st.maxConnections

/-- Sample pool with capacity 2 and an empty pool per server. -/
def sampCap2 : PoolState := { sampInit with maxConnections := 2 }

/-- Sample pool with capacity 2 whose pool for "a" is already full. -/
def sampCap2Full : PoolState :=
  { sampCap2 with pools := [("a", [PyVal.conn 1, PyVal.conn 2]), ("b", [])] }

/-- Sample healthy registry entry. -/
def sampHealthy : ServerHealth := ⟨ServerStatus.healthy, 0, 0, 50⟩

/-- Sample state: "a" healthy, "b" unhealthy and cooling down. -/
def sampStMixed : PoolState :=
  { sampInit with serverStatus := [("a", sampHealthy), ("b", sampUnhealthy)] }

/-- Repeated `_mark_server_failed` calls against one server, at the given
sequence of clock readings. -/
def iterFail (st : PoolState) (ip : String) (ts : List Nat) : PoolState :=
  ts.foldl (fun s t => markServerFailed s ip t) st

/-- The registry invariant of the claim: a server is marked `UNHEALTHY`
only once its consecutive-failure counter has reached
`unhealthy_threshold`. -/
def statusThresholdInv (st : PoolState) : Prop :=
  ∀ ip h, lookupA ip st.serverStatus = some h →
    h.status = ServerStatus.unhealthy → st.unhealthyThreshold ≤ h.failCount

/-- A freshly initialised pool (default configuration) over two registered
servers, the first being primary. -/
def scenarioAState (sA sB : Server) : PoolState :=
  initialPoolState [sA, sB] 5 3 3 60 3 300

/-- Oracle for the witnesses: connecting to "b" succeeds immediately with
connection 9, every other server is unreachable. -/
def wConnB : String → Nat → Option Nat := fun ip _ => if ip = "b" then some 9 else none

/-- Sample state for the maintenance pass: "a" unhealthy past cool-down,
"b" healthy with one idle connection. -/
def sampStHC : PoolState :=
  { sampInit with
      serverStatus := [("a", sampUnhealthy), ("b", sampHealthy)]
      pools := [("a", []), ("b", [PyVal.conn 1])] }

/-- Sample pool whose primary server "a" has one idle, valid connection. -/
def wFacadeState : PoolState :=
  { sampInit with pools := [("a", [PyVal.conn 7]), ("b", [])] }

/-- A typical wrapped operation: a pytdx call such as
`api.get_security_count(0)` succeeds when `api` is a protocol connection
and raises (`AttributeError`) on any other object, such as a tuple. -/
def wOp : PyVal → Except Unit PyVal := fun v =>
  match v with
  | PyVal.conn n => Except.ok (PyVal.val n)
  | _ => Except.error ()

/-! ### Association-list lemmas -/

theorem lookupA_setAssoc_self (k : String) (g : β → β) (l : List (String × β)) :
    lookupA k (setAssoc k g l) = (lookupA k l).map g := by
  induction l with
  | nil => rfl
  | cons p rest ih =>
    obtain ⟨k₀, v⟩ := p
    by_cases h : k₀ = k <;> simp [lookupA, setAssoc, h, ih]

theorem lookupA_setAssoc_ne (k k₁ : String) (g : β → β) (l : List (String × β))
    (h : k₁ ≠ k) : lookupA k₁ (setAssoc k g l) = lookupA k₁ l := by
  induction l with
  | nil => rfl
  | cons p rest ih =>
    obtain ⟨k₀, v⟩ := p
    by_cases hk : k₀ = k
    · subst hk
      simp [lookupA, setAssoc, Ne.symm h, ih]
    · by_cases hk₁ : k₀ = k₁ <;> simp [lookupA, setAssoc, hk, hk₁, h, ih]

/-! ### C6 — cool-down expiry -/

/-- C6: for a server whose registry entry is `UNHEALTHY`,
`_is_server_available` returns `false` while `now - last_fail_time` is
below `recovery_time` and `true` once `recovery_time` has elapsed, with no
intervening call needed; for `UNKNOWN` or `HEALTHY` entries it returns
`true` unconditionally. -/
theorem coolDownExpiry (st : PoolState) (ip : String) (now : Nat) (h : ServerHealth)
    (hl : lookupA ip st.serverStatus = some h) :
    (h.status = ServerStatus.unhealthy →
      (((now : Int) - (h.lastFailTime : Int) < (st.recoveryTime : Int)) →
        isServerAvailable st ip now = false) ∧
      (((st.recoveryTime : Int) ≤ (now : Int) - (h.lastFailTime : Int)) →
        isServerAvailable st ip now = true)) ∧
    ((h.status = ServerStatus.unknown ∨ h.status = ServerStatus.healthy) →
      isServerAvailable st ip now = true) := by
  refine ⟨fun hs => ⟨fun hlt => ?_, fun hge => ?_⟩, fun hs => ?_⟩
  · simp [isServerAvailable, hl, hs, hlt]
  · have hx : ¬((now : Int) - (h.lastFailTime : Int) < (st.recoveryTime : Int)) := by omega
    simp [isServerAvailable, hl, hs, hx]
  · rcases hs with hs | hs <;> simp [isServerAvailable, hl, hs]

/-- C6 witness: the unhealthy sample server (failed at t=100, recovery 300)
is unavailable at t=150 and available again at t=400. -/
theorem coolDownExpiry_witness :
    isServerAvailable sampStCool "a" 150 = false ∧
    isServerAvailable sampStCool "a" 400 = true :=
  ⟨((coolDownExpiry sampStCool "a" 150 sampUnhealthy rfl).1 rfl).1 (by decide),
   ((coolDownExpiry sampStCool "a" 400 sampUnhealthy rfl).1 rfl).2 (by decide)⟩

/-! ### C4 — forced-retry escape hatch -/

/-- C4: when every registered server is unhealthy and inside its cool-down
window, `_get_available_servers` returns the full registered server list,
which is non-empty whenever at least one server is registered. -/
theorem forcedRetryEscapeHatch (st : PoolState) (now : Nat)
    (hidx : st.currentServerIndex < st.servers.length)
    (hall : ∀ s ∈ st.servers, ∃ h, lookupA s.ip st.serverStatus = some h ∧
      h.status = ServerStatus.unhealthy ∧
      (now : Int) - (h.lastFailTime : Int) < (st.recoveryTime : Int)) :
    getAvailableServers st now = st.servers ∧
    (st.servers ≠ [] → getAvailableServers st now ≠ []) := by
  have huna : ∀ s ∈ st.servers, isServerAvailable st s.ip now = false := by
    intro s hs
    obtain ⟨h, hl, h1, h2⟩ := hall s hs
    simp [isServerAvailable, hl, h1, h2]
  have hcur : st.servers[st.currentServerIndex]? = some st.servers[st.currentServerIndex] :=
    List.getElem?_eq_getElem hidx
  have hmem : st.servers[st.currentServerIndex] ∈ st.servers := List.getElem_mem _
  have hfil : st.servers.filter
      (fun s => decide (s.ip ≠ st.servers[st.currentServerIndex].ip) &&
        isServerAvailable st s.ip now) = [] := by
    rw [List.filter_eq_nil_iff]
    intro a ha
    rw [huna a ha]
    simp
  have hmain : getAvailableServers st now = st.servers := by
    simp only [getAvailableServers, hcur]
    rw [huna _ hmem, hfil]
    simp
  exact ⟨hmain, fun hne => hmain ▸ hne⟩

/-- C4 witness: with both sample servers unhealthy and cooling down at
t=150, the candidate list is the full (non-empty) server list. -/
theorem forcedRetryEscapeHatch_witness :
    getAvailableServers sampStCool 150 = [sampA, sampB] ∧
    getAvailableServers sampStCool 150 ≠ [] := by
  have h := forcedRetryEscapeHatch sampStCool 150 (by decide)
    (by
      intro s hs
      refine ⟨sampUnhealthy, ?_, rfl, by decide⟩
      fin_cases hs <;> rfl)
  exact ⟨h.1, h.2 (by decide)⟩

/-! ### C10 — release attribution defaults to the current primary -/

/-- C10: `return_connection(api)` with no server argument (the Client
Facade call pattern) attributes the object to the current primary server:
if the primary's pool is not full the object is appended there, the pools
of all other ips are untouched, and the action is a queueing, not a
disconnect. -/
theorem releaseDefaultsToPrimary (st : PoolState) (a : PyVal) (current : Server)
    (q : List PyVal)
    (hcur : st.servers[st.currentServerIndex]? = some current)
    (hq : lookupA current.ip st.pools = some q)
    (hnotfull : queueFull st.maxConnections q.length = false) :
    lookupA current.ip (returnConnection st (some a) none).1.pools = some (q ++ [a]) ∧
    (∀ ip, ip ≠ current.ip →
      lookupA ip (returnConnection st (some a) none).1.pools = lookupA ip st.pools) ∧
    (returnConnection st (some a) none).2 = ReleaseAction.queued := by
  have hres : returnConnection st (some a) none =
      ({ st with pools := setAssoc current.ip (fun q₀ => q₀ ++ [a]) st.pools },
        ReleaseAction.queued) := by
    unfold returnConnection releaseIp
    rw [hcur]
    simp [hq, hnotfull]
  refine ⟨?_, fun ip hip => ?_, ?_⟩
  · rw [hres]
    simp [lookupA_setAssoc_self, hq]
  · rw [hres]
    exact lookupA_setAssoc_ne _ _ _ _ hip
  · rw [hres]

/-- C10 witness: a connection established to server "b" but released with
no server argument while "a" is primary lands in the pool of "a"; the pool
of "b" is unchanged. -/
theorem releaseDefaultsToPrimary_witness :
    lookupA "a" (returnConnection sampInit (some (PyVal.conn 3)) none).1.pools =
      some [PyVal.conn 3] ∧
    lookupA "b" (returnConnection sampInit (some (PyVal.conn 3)) none).1.pools =
      lookupA "b" sampInit.pools ∧
    (returnConnection sampInit (some (PyVal.conn 3)) none).2 = ReleaseAction.queued := by
  have h := releaseDefaultsToPrimary sampInit (PyVal.conn 3) sampA [] rfl rfl (by decide)
  exact ⟨h.1, h.2.1 "b" (by decide), h.2.2⟩

/-! ### C8 — pool bound and release rejection -/

theorem maxConnections_returnConnection (st : PoolState) (api : Option PyVal)
    (srv : Option Server) :
    (returnConnection st api srv).1.maxConnections = st.maxConnections := by
  cases api with
  | none => rfl
  | some a =>
    cases hip : releaseIp st srv with
    | none => simp [returnConnection, hip]
    | some ip =>
      cases hq : lookupA ip st.pools with
      | none => simp [returnConnection, hip, hq]
      | some q =>
        by_cases hf : queueFull st.maxConnections q.length <;>
          simp [returnConnection, hip, hq, hf]

theorem poolBoundInv_returnConnection (st : PoolState) (hmax : 0 < st.maxConnections)
    (hinv : poolBoundInv st) (api : Option PyVal) (srv : Option Server) :
    poolBoundInv (returnConnection st api srv).1 := by
  cases api with
  | none => exact hinv
  | some a =>
    cases hip : releaseIp st srv with
    | none => simpa [returnConnection, hip] using hinv
    | some ip =>
      cases hq : lookupA ip st.pools with
      | none => simpa [returnConnection, hip, hq] using hinv
      | some q =>
        by_cases hf : queueFull st.maxConnections q.length
        · simpa [returnConnection, hip, hq, hf] using hinv
        · simp only [returnConnection, hip, hq, hf, Bool.false_eq_true, if_false]
          intro ip₁ q₁ hq₁
          simp only at hq₁
          by_cases hipeq : ip₁ = ip
          · subst hipeq
            rw [lookupA_setAssoc_self, hq] at hq₁
            simp only [Option.map_some'] at hq₁
            have hlen : q.length < st.maxConnections := by
              unfold queueFull at hf
              simp at hf
              omega
            have h₂ := Option.some.inj hq₁
            subst h₂
            simp
            omega
          · rw [lookupA_setAssoc_ne _ _ _ _ hipeq] at hq₁
            exact hinv ip₁ q₁ hq₁

/-- C8: with a positive capacity, (i) `poolBoundInv` — no per-server pool
exceeding `max_connections` — is preserved by any sequence of
`return_connection` calls, so no release sequence can overfill a pool;
(ii) releasing to a full pool returns the state unchanged with the object
disconnected, not queued; (iii) releasing to an ip with no pool likewise
disconnects.  `return_connection` is a total function of the state — the
caller is never blocked. -/
theorem poolBoundAndRejection (st : PoolState) (hmax : 0 < st.maxConnections) :
    (poolBoundInv st →
      ∀ reqs : List (Option PyVal × Option Server),
        poolBoundInv (reqs.foldl (fun s r => (returnConnection s r.1 r.2).1) st)) ∧
    (∀ a s q, lookupA s.ip st.pools = some q → st.maxConnections ≤ q.length →
      returnConnection st (some a) (some s) = (st, ReleaseAction.discarded)) ∧
    (∀ a s, lookupA s.ip st.pools = none →
      returnConnection st (some a) (some s) = (st, ReleaseAction.discarded)) := by
  refine ⟨fun hinv reqs => ?_, fun a s q hq hfull => ?_, fun a s hq => ?_⟩
  · induction reqs generalizing st with
    | nil => exact hinv
    | cons r rest ih =>
      simp only [List.foldl_cons]
      exact ih _ (by rw [maxConnections_returnConnection]; exact hmax)
        (poolBoundInv_returnConnection st hmax hinv r.1 r.2)
  · unfold returnConnection releaseIp
    have : queueFull st.maxConnections q.length = true := by
      unfold queueFull
      simp [hmax, hfull]
    simp [hq, this]
  · unfold returnConnection releaseIp
    simp [hq]

/-- C8 witness: with capacity 2, a sequence of three releases to "a" keeps
the bound invariant, and a release to the already-full pool of "a" is
rejected with the state unchanged and the object disconnected. -/
theorem poolBoundAndRejection_witness :
    poolBoundInv (([(some (PyVal.conn 1), some sampA), (some (PyVal.conn 2), some sampA),
        (some (PyVal.conn 3), some sampA)] :
          List (Option PyVal × Option Server)).foldl
        (fun s r => (returnConnection s r.1 r.2).1) sampCap2) ∧
    returnConnection sampCap2Full (some (PyVal.conn 3)) (some sampA) =
      (sampCap2Full, ReleaseAction.discarded) := by
  constructor
  · refine (poolBoundAndRejection sampCap2 (by decide)).1 ?_ _
    intro ip q hq
    have hq₁ : (if ("a" : String) = ip then some ([] : List PyVal)
        else if ("b" : String) = ip then some [] else none) = some q := by
      simpa [lookupA] using hq
    by_cases h1 : ("a" : String) = ip
    · rw [if_pos h1] at hq₁
      cases hq₁
      decide
    · rw [if_neg h1] at hq₁
      by_cases h2 : ("b" : String) = ip
      · rw [if_pos h2] at hq₁
        cases hq₁
        decide
      · rw [if_neg h2] at hq₁
        cases hq₁
  · exact (poolBoundAndRejection sampCap2Full (by decide)).2.1 (PyVal.conn 3) sampA
      [PyVal.conn 1, PyVal.conn 2] rfl (by decide)

/-! ### C5 — candidate ordering and availability monotonicity -/

theorem mem_of_getElem_opt (l : List Server) (i : Nat) (s : Server)
    (h : l[i]? = some s) : s ∈ l := by
  by_cases hi : i < l.length
  · rw [List.getElem?_eq_getElem hi] at h
    have h₁ := Option.some.inj h
    rw [← h₁]
    exact List.getElem_mem _
  · rw [List.getElem?_eq_none (by omega)] at h
    exact absurd h (by simp)

/-- C5: when some registered server is available, `_get_available_servers`
returns the current primary first (if available) followed by the other
available servers in registration order; every returned server is
available; and every registered server that is `HEALTHY` with zero
consecutive failures is in the returned list. -/
theorem candidateOrdering (st : PoolState) (now : Nat) (current : Server)
    (hnodup : (st.servers.map Server.ip).Nodup)
    (hcur : st.servers[st.currentServerIndex]? = some current)
    (hsome : ∃ s ∈ st.servers, isServerAvailable st s.ip now = true) :
    getAvailableServers st now =
      (if isServerAvailable st current.ip now then [current] else []) ++
        st.servers.filter
          (fun s => decide (s.ip ≠ current.ip) && isServerAvailable st s.ip now) ∧
    (∀ s ∈ getAvailableServers st now, isServerAvailable st s.ip now = true) ∧
    (∀ s ∈ st.servers, ∀ h, lookupA s.ip st.serverStatus = some h →
      h.status = ServerStatus.healthy → h.failCount = 0 →
      s ∈ getAvailableServers st now) := by
  have hinj := List.inj_on_of_nodup_map hnodup
  have hcurmem : current ∈ st.servers := mem_of_getElem_opt _ _ _ hcur
  obtain ⟨s₀, hs₀, hav₀⟩ := hsome
  set first := (if isServerAvailable st current.ip now then [current] else [])
    with hfirst
  set rest := st.servers.filter
    (fun s => decide (s.ip ≠ current.ip) && isServerAvailable st s.ip now) with hrest
  have hne : first ++ rest ≠ [] := by
    by_cases hip : s₀.ip = current.ip
    · have hcurav : isServerAvailable st current.ip now = true := by
        rw [hip] at hav₀
        exact hav₀
      simp [hfirst, hcurav]
    · have hmemr : s₀ ∈ rest := by
        rw [hrest]
        exact List.mem_filter.mpr ⟨hs₀, by simp [hip, hav₀]⟩
      intro hemp
      rcases List.append_eq_nil.mp hemp with ⟨h1, h2⟩
      rw [h2] at hmemr
      exact absurd hmemr (List.not_mem_nil s₀)
  have hEmpty : (first ++ rest).isEmpty = false := by
    cases hfr : first ++ rest with
    | nil => exact absurd hfr hne
    | cons a t => rfl
  have hmain : getAvailableServers st now = first ++ rest := by
    simp only [getAvailableServers, hcur]
    rw [hEmpty]
    rw [if_neg (by simp), hfirst, hrest]
  refine ⟨hmain, ?_, ?_⟩
  · intro s hsmem
    rw [hmain] at hsmem
    rcases List.mem_append.mp hsmem with hm | hm
    · rw [hfirst] at hm
      by_cases hcav : isServerAvailable st current.ip now
      · rw [if_pos hcav] at hm
        rw [List.mem_singleton.mp hm]
        exact hcav
      · rw [if_neg hcav] at hm
        exact absurd hm (List.not_mem_nil s)
    · rw [hrest] at hm
      have hp := (List.mem_filter.mp hm).2
      simp only [Bool.and_eq_true] at hp
      exact hp.2
  · intro s hsmem h hl hstat hfc
    have hsav : isServerAvailable st s.ip now = true := by
      simp [isServerAvailable, hl, hstat]
    rw [hmain]
    by_cases hip : s.ip = current.ip
    · have heq : s = current := hinj hsmem hcurmem hip
      subst heq
      rw [hfirst]
      rw [hsav]
      simp
    · refine List.mem_append.mpr (Or.inr ?_)
      rw [hrest]
      exact List.mem_filter.mpr ⟨hsmem, by simp [hip, hsav]⟩

/-- C5 witness: with "a" (primary) healthy and "b" cooling down, the
candidate list at t=150 is primary-first and the healthy server "a" is a
member. -/
theorem candidateOrdering_witness :
    getAvailableServers sampStMixed 150 =
      (if isServerAvailable sampStMixed sampA.ip 150 then [sampA] else []) ++
        [sampA, sampB].filter
          (fun s => decide (s.ip ≠ sampA.ip) && isServerAvailable sampStMixed s.ip 150) ∧
    sampA ∈ getAvailableServers sampStMixed 150 := by
  have h := candidateOrdering sampStMixed 150 sampA (by decide) rfl
    ⟨sampA, by decide, by decide⟩
  exact ⟨h.1, h.2.2 sampA (by decide) sampHealthy rfl rfl rfl⟩

/-! ### C3 — unhealthy threshold transition -/

theorem failOnce_failCount (thr t : Nat) (h : ServerHealth) :
    (failOnce thr t h).failCount = h.failCount + 1 := by
  simp only [failOnce]
  split <;> rfl

theorem failOnce_lastFailTime (thr t : Nat) (h : ServerHealth) :
    (failOnce thr t h).lastFailTime = t := by
  simp only [failOnce]
  split <;> rfl

theorem failOnce_status (thr t : Nat) (h : ServerHealth) :
    (failOnce thr t h).status =
      if thr ≤ h.failCount + 1 then ServerStatus.unhealthy else h.status := by
  simp only [failOnce]
  split <;> rfl

theorem foldl_failOnce_spec (thr : Nat) (h : ServerHealth) (ts : List Nat) :
    (ts.foldl (fun h₁ t => failOnce thr t h₁) h).failCount = h.failCount + ts.length ∧
    (ts.foldl (fun h₁ t => failOnce thr t h₁) h).status =
      (if 1 ≤ ts.length ∧ thr ≤ h.failCount + ts.length then ServerStatus.unhealthy
       else h.status) := by
  induction ts generalizing h with
  | nil => simp
  | cons t ts ih =>
    obtain ⟨ihc, ihs⟩ := ih (failOnce thr t h)
    refine ⟨?_, ?_⟩
    · rw [List.foldl_cons, ihc, failOnce_failCount]
      simp only [List.length_cons]
      omega
    · rw [List.foldl_cons, ihs, failOnce_failCount, failOnce_status]
      simp only [List.length_cons]
      split_ifs <;> first | rfl | omega

theorem lookupA_iterFail (st : PoolState) (ip : String) (ts : List Nat) :
    lookupA ip (iterFail st ip ts).serverStatus =
      (lookupA ip st.serverStatus).map
        (fun h => ts.foldl (fun h₁ t => failOnce st.unhealthyThreshold t h₁) h) := by
  induction ts generalizing st with
  | nil => simp [iterFail]
  | cons t ts ih =>
    have hstep := ih (markServerFailed st ip t)
    simp only [iterFail, List.foldl_cons] at hstep ⊢
    rw [hstep]
    simp only [markServerFailed]
    rw [lookupA_setAssoc_self]
    cases lookupA ip st.serverStatus <;> simp

/-- C3: starting from a registered server with zero failures and a
Healthy/Unknown status, (i) exactly `unhealthy_threshold` consecutive
`_mark_server_failed` calls leave it `UNHEALTHY` with `fail_count =
unhealthy_threshold`; (ii) `unhealthy_threshold - 1` such calls leave the
status unchanged (still Healthy/Unknown); (iii)-(v) the
status-implies-threshold invariant holds of every freshly initialised pool
and is preserved by `_mark_server_failed` and `_mark_server_healthy`; and
(vi) `_mark_server_healthy` resets the status to `HEALTHY` and the counter
to 0. -/
theorem thresholdTransition (st : PoolState) (ip : String) (h₀ : ServerHealth)
    (hl : lookupA ip st.serverStatus = some h₀)
    (hc : h₀.failCount = 0)
    (hs : h₀.status = ServerStatus.healthy ∨ h₀.status = ServerStatus.unknown)
    (hthr : 1 ≤ st.unhealthyThreshold) :
    (∀ ts : List Nat, ts.length = st.unhealthyThreshold →
      ∃ h₁, lookupA ip (iterFail st ip ts).serverStatus = some h₁ ∧
        h₁.status = ServerStatus.unhealthy ∧ h₁.failCount = st.unhealthyThreshold) ∧
    (∀ ts : List Nat, ts.length = st.unhealthyThreshold - 1 →
      ∃ h₁, lookupA ip (iterFail st ip ts).serverStatus = some h₁ ∧
        h₁.status = h₀.status ∧
        (h₁.status = ServerStatus.healthy ∨ h₁.status = ServerStatus.unknown)) ∧
    (∀ servers mc ct rt hci th rec,
      statusThresholdInv (initialPoolState servers mc ct rt hci th rec)) ∧
    (∀ st₁ ip₁ t₁, statusThresholdInv st₁ →
      statusThresholdInv (markServerFailed st₁ ip₁ t₁)) ∧
    (∀ st₁ ip₁ t₁, statusThresholdInv st₁ →
      statusThresholdInv (markServerHealthy st₁ ip₁ t₁)) ∧
    (∀ t₁ h₁, lookupA ip (markServerHealthy st ip t₁).serverStatus = some h₁ →
      h₁.status = ServerStatus.healthy ∧ h₁.failCount = 0) := by
  refine ⟨?_, ?_, ?_, ?_, ?_, ?_⟩
  · intro ts hlen
    rw [lookupA_iterFail, hl]
    simp only [Option.map_some']
    refine ⟨_, rfl, ?_, ?_⟩
    · rw [(foldl_failOnce_spec st.unhealthyThreshold h₀ ts).2, hc, hlen]
      rw [if_pos ⟨hthr, by omega⟩]
    · rw [(foldl_failOnce_spec st.unhealthyThreshold h₀ ts).1, hc, hlen]
      omega
  · intro ts hlen
    rw [lookupA_iterFail, hl]
    simp only [Option.map_some']
    refine ⟨_, rfl, ?_, ?_⟩
    · rw [(foldl_failOnce_spec st.unhealthyThreshold h₀ ts).2, hc, hlen]
      rw [if_neg (by omega)]
    · rw [(foldl_failOnce_spec st.unhealthyThreshold h₀ ts).2, hc, hlen]
      rw [if_neg (by omega)]
      exact hs
  · intro servers mc ct rt hci th rec ip₁ h₁ hlk hst
    have hmem : ∃ s ∈ servers, h₁ = (⟨ServerStatus.unknown, 0, 0, 0⟩ : ServerHealth) := by
      clear hst
      induction servers with
      | nil => simp [initialPoolState, lookupA] at hlk
      | cons s rest ih =>
        simp only [initialPoolState, List.map_cons, lookupA] at hlk ih
        by_cases hip : s.ip = ip₁
        · rw [if_pos hip] at hlk
          exact ⟨s, List.mem_cons_self s rest, (Option.some.inj hlk).symm⟩
        · rw [if_neg hip] at hlk
          obtain ⟨s', hs', hb⟩ := ih hlk
          exact ⟨s', List.mem_cons_of_mem s hs', hb⟩
    obtain ⟨s, hsmem, rfl⟩ := hmem
    exact absurd hst (by simp)
  · intro st₁ ip₁ t₁ hinv ip₂ h₂ hlk hst
    simp only [markServerFailed] at hlk ⊢
    by_cases hip : ip₂ = ip₁
    · subst hip
      rw [lookupA_setAssoc_self] at hlk
      cases hl₀ : lookupA ip₂ st₁.serverStatus with
      | none => rw [hl₀] at hlk; exact absurd hlk (by simp)
      | some h₃ =>
        rw [hl₀] at hlk
        simp only [Option.map_some'] at hlk
        have hf := Option.some.inj hlk
        rw [← hf] at hst ⊢
        rw [failOnce_failCount]
        rw [failOnce_status] at hst
        by_cases hcond : st₁.unhealthyThreshold ≤ h₃.failCount + 1
        · exact hcond
        · rw [if_neg hcond] at hst
          have := hinv ip₂ h₃ hl₀ hst
          omega
    · rw [lookupA_setAssoc_ne _ _ _ _ hip] at hlk
      exact hinv ip₂ h₂ hlk hst
  · intro st₁ ip₁ t₁ hinv ip₂ h₂ hlk hst
    simp only [markServerHealthy] at hlk ⊢
    by_cases hip : ip₂ = ip₁
    · subst hip
      rw [lookupA_setAssoc_self] at hlk
      cases hl₀ : lookupA ip₂ st₁.serverStatus with
      | none => rw [hl₀] at hlk; exact absurd hlk (by simp)
      | some h₃ =>
        rw [hl₀] at hlk
        simp only [Option.map_some'] at hlk
        have hf := Option.some.inj hlk
        rw [← hf] at hst
        exact absurd hst (by simp)
    · rw [lookupA_setAssoc_ne _ _ _ _ hip] at hlk
      exact hinv ip₂ h₂ hlk hst
  · intro t₁ h₁ hlk
    simp only [markServerHealthy] at hlk
    rw [lookupA_setAssoc_self, hl] at hlk
    simp only [Option.map_some'] at hlk
    have hf := Option.some.inj hlk
    rw [← hf]
    exact ⟨rfl, rfl⟩

/-- C3 witness: with threshold 3 and a fresh (`UNKNOWN`, 0 failures)
server "a", three failures flip it to `UNHEALTHY` with counter 3, while
two failures leave it `UNKNOWN`. -/
theorem thresholdTransition_witness :
    (∃ h₁, lookupA "a" (iterFail sampInit "a" [5, 6, 7]).serverStatus = some h₁ ∧
      h₁.status = ServerStatus.unhealthy ∧ h₁.failCount = sampInit.unhealthyThreshold) ∧
    (∃ h₁, lookupA "a" (iterFail sampInit "a" [8, 9]).serverStatus = some h₁ ∧
      h₁.status = (⟨ServerStatus.unknown, 0, 0, 0⟩ : ServerHealth).status ∧
      (h₁.status = ServerStatus.healthy ∨ h₁.status = ServerStatus.unknown)) := by
  have h := thresholdTransition sampInit "a" ⟨ServerStatus.unknown, 0, 0, 0⟩ rfl rfl
    (Or.inr rfl) (by decide)
  exact ⟨h.1 [5, 6, 7] rfl, h.2.1 [8, 9] rfl⟩

/-! ### C2 — acquire failover, Scenario A -/

/-- C2 (Scenario A): with two fresh servers, every connect to S1 failing
and the first connect to S2 succeeding, one `get_connection` call makes
exactly `retry_times = 3` creation attempts against S1 and one against S2,
returns the fresh connection paired with S2, records exactly one failure
for S1 (counter 1, still below the threshold), marks S2 healthy, and moves
the primary index to S2. -/
theorem acquireFailoverScenarioA (sA sB : Server) (now c : Nat)
    (testOk : PyVal → Bool) (connect : String → Nat → Option Nat)
    (hne : sA.ip ≠ sB.ip)
    (hA : ∀ k, connect sA.ip k = none)
    (hB : connect sB.ip 0 = some c) :
    (getConnection (scenarioAState sA sB) now testOk connect).1 =
      some (PyVal.conn c, sB, true) ∧
    (getConnection (scenarioAState sA sB) now testOk connect).2.2 =
      [(sA.ip, 0), (sA.ip, 1), (sA.ip, 2), (sB.ip, 0)] ∧
    lookupA sA.ip
        (getConnection (scenarioAState sA sB) now testOk connect).2.1.serverStatus =
      some ⟨ServerStatus.unknown, 1, now, 0⟩ ∧
    lookupA sB.ip
        (getConnection (scenarioAState sA sB) now testOk connect).2.1.serverStatus =
      some ⟨ServerStatus.healthy, 0, 0, now⟩ ∧
    (getConnection (scenarioAState sA sB) now testOk connect).2.1.currentServerIndex = 1 := by
  have hlookA : lookupA sA.ip (scenarioAState sA sB).serverStatus =
      some ⟨ServerStatus.unknown, 0, 0, 0⟩ := by
    simp [scenarioAState, initialPoolState, lookupA]
  have hlookB : lookupA sB.ip (scenarioAState sA sB).serverStatus =
      some ⟨ServerStatus.unknown, 0, 0, 0⟩ := by
    simp [scenarioAState, initialPoolState, lookupA, hne]
  have havailA : isServerAvailable (scenarioAState sA sB) sA.ip now = true := by
    simp [isServerAvailable, hlookA]
  have havailB : isServerAvailable (scenarioAState sA sB) sB.ip now = true := by
    simp [isServerAvailable, hlookB]
  have hcands : getAvailableServers (scenarioAState sA sB) now = [sA, sB] := by
    have hfa : (decide (sA.ip ≠ sA.ip) &&
        isServerAvailable (scenarioAState sA sB) sA.ip now) = false := by
      simp
    have hfb : (decide (sB.ip ≠ sA.ip) &&
        isServerAvailable (scenarioAState sA sB) sB.ip now) = true := by
      simp [Ne.symm hne, havailB]
    have hcur : (scenarioAState sA sB).servers[(scenarioAState sA sB).currentServerIndex]? =
        some sA := rfl
    simp only [getAvailableServers, hcur]
    rw [havailA]
    rw [show (scenarioAState sA sB).servers = [sA, sB] from rfl]
    simp only [List.filter_cons, hfa, hfb, List.filter_nil]
    rfl
  have hpoolA : lookupA sA.ip (scenarioAState sA sB).pools = some [] := by
    simp [scenarioAState, initialPoolState, lookupA]
  have htryA : tryCreate connect sA.ip 3 = (none, [(sA.ip, 0), (sA.ip, 1), (sA.ip, 2)]) := by
    simp [tryCreate, tryCreateAux, hA]
  have htryB : tryCreate connect sB.ip 3 = (some c, [(sB.ip, 0)]) := by
    simp [tryCreate, tryCreateAux, hB]
  have hstepA : getConnStep (scenarioAState sA sB) sA now testOk connect =
      (none, markServerFailed (scenarioAState sA sB) sA.ip now,
        [(sA.ip, 0), (sA.ip, 1), (sA.ip, 2)]) := by
    simp only [getConnStep, hpoolA, createForServer]
    rw [show (scenarioAState sA sB).retryTimes = 3 from rfl, htryA]
  have hpoolB1 : lookupA sB.ip (markServerFailed (scenarioAState sA sB) sA.ip now).pools =
      some [] := by
    simp [markServerFailed, scenarioAState, initialPoolState, lookupA, hne]
  have hfind : findIpIdx sB.ip (scenarioAState sA sB).servers = some 1 := by
    simp [scenarioAState, initialPoolState, findIpIdx, hne]
  have hstepB : getConnStep (markServerFailed (scenarioAState sA sB) sA.ip now) sB now
      testOk connect =
      (some (PyVal.conn c, true),
        { markServerHealthy (markServerFailed (scenarioAState sA sB) sA.ip now) sB.ip now
            with currentServerIndex := 1 },
        [(sB.ip, 0)]) := by
    simp only [getConnStep, hpoolB1, createForServer]
    rw [show (markServerFailed (scenarioAState sA sB) sA.ip now).retryTimes = 3 from rfl,
      htryB]
    simp only [markServerHealthy, markServerFailed]
    rw [hfind]
  have hrun : getConnection (scenarioAState sA sB) now testOk connect =
      (some (PyVal.conn c, sB, true),
        { markServerHealthy (markServerFailed (scenarioAState sA sB) sA.ip now) sB.ip now
            with currentServerIndex := 1 },
        [(sA.ip, 0), (sA.ip, 1), (sA.ip, 2)] ++ [(sB.ip, 0)]) := by
    simp only [getConnection, hcands, getConnectionAux, hstepA, hstepB]
  refine ⟨?_, ?_, ?_, ?_, ?_⟩
  · rw [hrun]
  · rw [hrun]
    rfl
  · rw [hrun]
    simp only [markServerHealthy, markServerFailed]
    rw [lookupA_setAssoc_ne _ _ _ _ hne, lookupA_setAssoc_self, hlookA]
    simp [failOnce, scenarioAState, initialPoolState]
  · rw [hrun]
    simp only [markServerHealthy, markServerFailed]
    rw [lookupA_setAssoc_self, lookupA_setAssoc_ne _ _ _ _ (Ne.symm hne), hlookB]
    rfl
  · rw [hrun]

/-- C2 witness: the scenario evaluated at the sample servers. -/
theorem acquireFailoverScenarioA_witness :
    (getConnection (scenarioAState sampA sampB) 10 (fun _ => true) wConnB).1 =
      some (PyVal.conn 9, sampB, true) ∧
    (getConnection (scenarioAState sampA sampB) 10 (fun _ => true) wConnB).2.2 =
      [(sampA.ip, 0), (sampA.ip, 1), (sampA.ip, 2), (sampB.ip, 0)] ∧
    lookupA sampA.ip
        (getConnection (scenarioAState sampA sampB) 10 (fun _ => true) wConnB).2.1.serverStatus =
      some ⟨ServerStatus.unknown, 1, 10, 0⟩ ∧
    lookupA sampB.ip
        (getConnection (scenarioAState sampA sampB) 10 (fun _ => true) wConnB).2.1.serverStatus =
      some ⟨ServerStatus.healthy, 0, 0, 10⟩ ∧
    (getConnection (scenarioAState sampA sampB) 10 (fun _ => true) wConnB).2.1.currentServerIndex =
      1 :=
  acquireFailoverScenarioA sampA sampB 10 9 (fun _ => true) wConnB (by decide)
    (fun _ => rfl) rfl

/-! ### C7 — sticky pinning -/

theorem servers_markServerHealthy (st : PoolState) (ip : String) (now : Nat) :
    (markServerHealthy st ip now).servers = st.servers := rfl

theorem servers_markServerFailed (st : PoolState) (ip : String) (now : Nat) :
    (markServerFailed st ip now).servers = st.servers := rfl

theorem servers_createForServer (st : PoolState) (server : Server) (now : Nat)
    (connect : String → Nat → Option Nat) :
    (createForServer st server now connect).2.1.servers = st.servers := by
  simp only [createForServer]
  cases hr : (tryCreate connect server.ip st.retryTimes).1 with
  | none => simp [markServerFailed]
  | some c =>
    simp only
    cases hf : findIpIdx server.ip (markServerHealthy st server.ip now).servers <;>
      simp [markServerHealthy]

theorem servers_getConnStep (st : PoolState) (server : Server) (now : Nat)
    (testOk : PyVal → Bool) (connect : String → Nat → Option Nat) :
    (getConnStep st server now testOk connect).2.1.servers = st.servers := by
  simp only [getConnStep]
  cases hq : lookupA server.ip st.pools with
  | none => exact servers_createForServer st server now connect
  | some q =>
    cases q with
    | nil => exact servers_createForServer st server now connect
    | cons a restQ =>
      by_cases ht : testOk a
      · simp [ht, markServerHealthy]
      · simp only [ht, Bool.false_eq_true, if_false]
        exact servers_createForServer _ server now connect

theorem isServerAvailable_markServerHealthy (st : PoolState) (ip : String) (now t : Nat) :
    isServerAvailable (markServerHealthy st ip now) ip t = true := by
  simp only [isServerAvailable, markServerHealthy]
  rw [lookupA_setAssoc_self]
  cases lookupA ip st.serverStatus <;> simp

theorem getConnStep_fresh (st : PoolState) (server : Server) (now : Nat)
    (testOk : PyVal → Bool) (connect : String → Nat → Option Nat) (a : PyVal)
    (h : (getConnStep st server now testOk connect).1 = some (a, true)) :
    (∀ i, findIpIdx server.ip st.servers = some i →
      (getConnStep st server now testOk connect).2.1.currentServerIndex = i) ∧
    (∀ t, isServerAvailable (getConnStep st server now testOk connect).2.1 server.ip t =
      true) := by
  have hcreate : ∀ st₁ : PoolState, st₁.servers = st.servers →
      st₁.serverStatus = st.serverStatus → st₁.recoveryTime = st.recoveryTime →
      st₁.retryTimes = st.retryTimes →
      (createForServer st₁ server now connect).1 = some (a, true) →
      (∀ i, findIpIdx server.ip st.servers = some i →
        (createForServer st₁ server now connect).2.1.currentServerIndex = i) ∧
      (∀ t, isServerAvailable (createForServer st₁ server now connect).2.1 server.ip t =
        true) := by
    intro st₁ hsrv hstat hrec hretry h₁
    simp only [createForServer] at h₁ ⊢
    cases hr : (tryCreate connect server.ip st₁.retryTimes).1 with
    | none => rw [hr] at h₁; exact absurd h₁ (by simp)
    | some c =>
      rw [hr] at h₁
      simp only
      constructor
      · intro i hi
        rw [servers_markServerHealthy, hsrv, hi]
      · intro t
        cases hf : findIpIdx server.ip (markServerHealthy st₁ server.ip now).servers with
        | none =>
          simp only [hf]
          exact isServerAvailable_markServerHealthy st₁ server.ip now t
        | some j =>
          simp only [hf]
          have heq : isServerAvailable
              { markServerHealthy st₁ server.ip now with currentServerIndex := j }
              server.ip t =
              isServerAvailable (markServerHealthy st₁ server.ip now) server.ip t := rfl
          rw [heq]
          exact isServerAvailable_markServerHealthy st₁ server.ip now t
  cases hq : lookupA server.ip st.pools with
  | none =>
    have hstep : getConnStep st server now testOk connect =
        createForServer st server now connect := by
      simp [getConnStep, hq]
    rw [hstep] at h ⊢
    exact hcreate st rfl rfl rfl rfl h
  | some q =>
    cases q with
    | nil =>
      have hstep : getConnStep st server now testOk connect =
          createForServer st server now connect := by
        simp [getConnStep, hq]
      rw [hstep] at h ⊢
      exact hcreate st rfl rfl rfl rfl h
    | cons a₀ restQ =>
      by_cases ht : testOk a₀
      · have hstep : (getConnStep st server now testOk connect).1 = some (a₀, false) := by
          simp [getConnStep, hq, ht]
        rw [hstep] at h
        simp at h
      · have hstep : getConnStep st server now testOk connect =
            createForServer { st with pools := setAssoc server.ip (fun _ => restQ) st.pools }
              server now connect := by
          simp [getConnStep, hq, ht]
        rw [hstep] at h ⊢
        exact hcreate _ rfl rfl rfl rfl h

theorem getConnAux_fresh (now : Nat) (testOk : PyVal → Bool)
    (connect : String → Nat → Option Nat) (a : PyVal) (B : Server) :
    ∀ (l : List Server) (st : PoolState),
      (getConnectionAux now testOk connect st l).1 = some (a, B, true) →
      (getConnectionAux now testOk connect st l).2.1.servers = st.servers ∧
      (∀ i, findIpIdx B.ip st.servers = some i →
        (getConnectionAux now testOk connect st l).2.1.currentServerIndex = i) ∧
      (∀ t, isServerAvailable (getConnectionAux now testOk connect st l).2.1 B.ip t =
        true) := by
  intro l
  induction l with
  | nil =>
    intro st h
    simp [getConnectionAux] at h
  | cons server rest ih =>
    intro st h
    cases hr : (getConnStep st server now testOk connect).1 with
    | some p =>
      obtain ⟨a₀, fr⟩ := p
      have hg : getConnectionAux now testOk connect st (server :: rest) =
          (some (a₀, server, fr), (getConnStep st server now testOk connect).2.1,
            (getConnStep st server now testOk connect).2.2) := by
        simp only [getConnectionAux, hr]
      rw [hg] at h ⊢
      simp only [Option.some.injEq, Prod.mk.injEq] at h
      obtain ⟨ha, hsrvB, hfr⟩ := h
      subst ha
      subst hsrvB
      subst hfr
      have hfresh := getConnStep_fresh st server now testOk connect a₀ hr
      exact ⟨servers_getConnStep st server now testOk connect, hfresh.1, hfresh.2⟩
    | none =>
      have hg : getConnectionAux now testOk connect st (server :: rest) =
          ((getConnectionAux now testOk connect
              (getConnStep st server now testOk connect).2.1 rest).1,
           (getConnectionAux now testOk connect
              (getConnStep st server now testOk connect).2.1 rest).2.1,
           (getConnStep st server now testOk connect).2.2 ++
             (getConnectionAux now testOk connect
               (getConnStep st server now testOk connect).2.1 rest).2.2) := by
        simp only [getConnectionAux, hr]
      rw [hg] at h ⊢
      have hsrv := servers_getConnStep st server now testOk connect
      obtain ⟨ih₁, ih₂, ih₃⟩ := ih (getConnStep st server now testOk connect).2.1 h
      refine ⟨?_, ?_, ?_⟩
      · show (getConnectionAux now testOk connect
            (getConnStep st server now testOk connect).2.1 rest).2.1.servers = st.servers
        rw [ih₁, hsrv]
      · intro i hi
        show (getConnectionAux now testOk connect
            (getConnStep st server now testOk connect).2.1 rest).2.1.currentServerIndex = i
        exact ih₂ i (by rw [hsrv]; exact hi)
      · intro t
        show isServerAvailable (getConnectionAux now testOk connect
            (getConnStep st server now testOk connect).2.1 rest).2.1 B.ip t = true
        exact ih₃ t

theorem resultServer_mem (now : Nat) (testOk : PyVal → Bool)
    (connect : String → Nat → Option Nat) (a : PyVal) (B : Server) (fr : Bool) :
    ∀ (l : List Server) (st : PoolState),
      (getConnectionAux now testOk connect st l).1 = some (a, B, fr) → B ∈ l := by
  intro l
  induction l with
  | nil =>
    intro st h
    simp [getConnectionAux] at h
  | cons server rest ih =>
    intro st h
    cases hr : (getConnStep st server now testOk connect).1 with
    | some p =>
      obtain ⟨a₀, fr₀⟩ := p
      have hg : (getConnectionAux now testOk connect st (server :: rest)).1 =
          some (a₀, server, fr₀) := by
        simp only [getConnectionAux, hr]
      rw [hg] at h
      simp only [Option.some.injEq, Prod.mk.injEq] at h
      rw [← h.2.1]
      exact List.mem_cons_self server rest
    | none =>
      have hg : (getConnectionAux now testOk connect st (server :: rest)).1 =
          (getConnectionAux now testOk connect
            (getConnStep st server now testOk connect).2.1 rest).1 := by
        simp only [getConnectionAux, hr]
      rw [hg] at h
      exact List.mem_cons_of_mem server (ih _ h)

theorem mem_getAvailableServers (st : PoolState) (now : Nat) (s : Server)
    (h : s ∈ getAvailableServers st now) : s ∈ st.servers := by
  simp only [getAvailableServers] at h
  cases hcur : st.servers[st.currentServerIndex]? with
  | none => rw [hcur] at h; exact h
  | some current =>
    rw [hcur] at h
    simp only at h
    by_cases hav : isServerAvailable st current.ip now
    · rw [if_pos hav] at h
      split at h
      · exact h
      · rcases List.mem_append.mp h with hm | hm
        · rw [List.mem_singleton.mp hm]
          exact mem_of_getElem_opt _ _ _ hcur
        · exact (List.mem_filter.mp hm).1
    · rw [if_neg hav] at h
      split at h
      · exact h
      · rw [List.nil_append] at h
        exact (List.mem_filter.mp h).1

theorem findIpIdx_isSome_of_mem (l : List Server) (s : Server) (hs : s ∈ l) :
    ∃ i, findIpIdx s.ip l = some i := by
  induction l with
  | nil => cases hs
  | cons a rest ih =>
    by_cases hip : a.ip = s.ip
    · exact ⟨0, by simp [findIpIdx, hip]⟩
    · rcases List.mem_cons.mp hs with rfl | hmem
      · exact absurd rfl hip
      · obtain ⟨i, hi⟩ := ih hmem
        exact ⟨i + 1, by simp [findIpIdx, hip, hi]⟩

theorem findIpIdx_spec (l : List Server) (ip : String) :
    ∀ i, findIpIdx ip l = some i → ∃ s, l[i]? = some s ∧ s.ip = ip := by
  induction l with
  | nil => intro i h; simp [findIpIdx] at h
  | cons a rest ih =>
    intro i h
    simp only [findIpIdx] at h
    by_cases hip : a.ip = ip
    · rw [if_pos hip] at h
      rw [← Option.some.inj h]
      exact ⟨a, by simp, hip⟩
    · rw [if_neg hip] at h
      cases hf : findIpIdx ip rest with
      | none => rw [hf] at h; exact absurd h (by simp)
      | some j =>
        rw [hf] at h
        simp only [Option.map_some', Option.some.injEq] at h
        obtain ⟨s, hs, hsip⟩ := ih j hf
        refine ⟨s, ?_, hsip⟩
        rw [← h]
        simpa using hs

theorem head_getAvailableServers (st : PoolState) (t : Nat) (B : Server)
    (hcur : st.servers[st.currentServerIndex]? = some B)
    (hav : isServerAvailable st B.ip t = true) :
    (getAvailableServers st t).head? = some B := by
  simp only [getAvailableServers, hcur]
  rw [hav]
  simp

/-- C7: whenever `get_connection` succeeds by creating a fresh connection
to server B (result flag `fresh = true`), the primary index afterwards is
B's index in the registered list, and a later `_get_available_servers`
call (any clock value) lists B first. -/
theorem stickyPinning (st : PoolState) (now : Nat) (testOk : PyVal → Bool)
    (connect : String → Nat → Option Nat) (a : PyVal) (B : Server)
    (hnodup : (st.servers.map Server.ip).Nodup)
    (hres : (getConnection st now testOk connect).1 = some (a, B, true)) :
    (getConnection st now testOk connect).2.1.servers = st.servers ∧
    (∃ i, findIpIdx B.ip st.servers = some i ∧
      (getConnection st now testOk connect).2.1.currentServerIndex = i ∧
      st.servers[i]? = some B) ∧
    (∀ t, (getAvailableServers ((getConnection st now testOk connect).2.1) t).head? =
      some B) := by
  have hconv : getConnection st now testOk connect =
      getConnectionAux now testOk connect st (getAvailableServers st now) := rfl
  rw [hconv] at hres ⊢
  have hmemL : B ∈ getAvailableServers st now :=
    resultServer_mem now testOk connect a B true _ st hres
  have hmem : B ∈ st.servers := mem_getAvailableServers st now B hmemL
  obtain ⟨i, hfind⟩ := findIpIdx_isSome_of_mem st.servers B hmem
  obtain ⟨hsrv, hidx, hav⟩ :=
    getConnAux_fresh now testOk connect a B (getAvailableServers st now) st hres
  have hidx₁ := hidx i hfind
  obtain ⟨s₁, hs₁, hip₁⟩ := findIpIdx_spec st.servers B.ip i hfind
  have hs₁B : s₁ = B :=
    List.inj_on_of_nodup_map hnodup (mem_of_getElem_opt _ _ _ hs₁) hmem hip₁
  rw [hs₁B] at hs₁
  refine ⟨hsrv, ⟨i, hfind, hidx₁, hs₁⟩, ?_⟩
  intro t
  have hcur₁ : (getConnectionAux now testOk connect st
        (getAvailableServers st now)).2.1.servers[
      (getConnectionAux now testOk connect st
        (getAvailableServers st now)).2.1.currentServerIndex]? = some B := by
    rw [hsrv, hidx₁]
    exact hs₁
  exact head_getAvailableServers _ t B hcur₁ (hav t)

/-- C7 witness: in the sample failover run, the primary index ends at
server "b" (index 1) and the next candidate list starts with "b". -/
theorem stickyPinning_witness :
    (getConnection (scenarioAState sampA sampB) 10 (fun _ => true) wConnB).2.1.currentServerIndex =
      1 ∧
    (getAvailableServers
        ((getConnection (scenarioAState sampA sampB) 10 (fun _ => true) wConnB).2.1)
        1000).head? = some sampB := by
  have h := stickyPinning (scenarioAState sampA sampB) 10 (fun _ => true) wConnB
    (PyVal.conn 9) sampB (by decide) (by decide)
  obtain ⟨hsrv, ⟨i, hf, hidx, hB⟩, hhead⟩ := h
  have h₁ : findIpIdx sampB.ip (scenarioAState sampA sampB).servers = some 1 := rfl
  rw [h₁] at hf
  have hi : (1 : Nat) = i := Option.some.inj hf
  exact ⟨hi ▸ hidx, hhead 1000⟩

/-! ### C9 — background maintainer pass -/

theorem healthStep_frame (now : Nat) (connect : String → Option Nat) (st : PoolState)
    (server : Server) (ip : String) (hip : ip ≠ server.ip) :
    lookupA ip (healthStep now connect st server).1.serverStatus =
      lookupA ip st.serverStatus ∧
    lookupA ip (healthStep now connect st server).1.pools = lookupA ip st.pools ∧
    (∀ x ∈ (healthStep now connect st server).2, x = server.ip) := by
  simp only [healthStep]
  repeat' split
  all_goals simp [markServerHealthy, lookupA_setAssoc_ne _ _ _ _ hip]

theorem healthStep_config (now : Nat) (connect : String → Option Nat) (st : PoolState)
    (server : Server) :
    (healthStep now connect st server).1.servers = st.servers ∧
    (healthStep now connect st server).1.recoveryTime = st.recoveryTime ∧
    (healthStep now connect st server).1.maxConnections = st.maxConnections := by
  simp only [healthStep]
  repeat' split
  all_goals simp [markServerHealthy]

theorem healthStep_local (now : Nat) (connect : String → Option Nat) (s : Server)
    (st₁ st₂ : PoolState)
    (hst : lookupA s.ip st₁.serverStatus = lookupA s.ip st₂.serverStatus)
    (hp : lookupA s.ip st₁.pools = lookupA s.ip st₂.pools)
    (hr : st₁.recoveryTime = st₂.recoveryTime)
    (hm : st₁.maxConnections = st₂.maxConnections) :
    lookupA s.ip (healthStep now connect st₁ s).1.serverStatus =
      lookupA s.ip (healthStep now connect st₂ s).1.serverStatus ∧
    lookupA s.ip (healthStep now connect st₁ s).1.pools =
      lookupA s.ip (healthStep now connect st₂ s).1.pools ∧
    (healthStep now connect st₁ s).2 = (healthStep now connect st₂ s).2 := by
  simp only [healthStep]
  rw [hst, hp, hr, hm]
  repeat' split
  all_goals simp [markServerHealthy, lookupA_setAssoc_self, hst, hp]

theorem doHealthCheckAux_frame (now : Nat) (connect : String → Option Nat) (ip : String) :
    ∀ (l : List Server) (st : PoolState), (∀ s ∈ l, s.ip ≠ ip) →
      lookupA ip (doHealthCheckAux now connect st l).1.serverStatus =
        lookupA ip st.serverStatus ∧
      lookupA ip (doHealthCheckAux now connect st l).1.pools = lookupA ip st.pools ∧
      ip ∉ (doHealthCheckAux now connect st l).2 := by
  intro l
  induction l with
  | nil =>
    intro st hl
    simp [doHealthCheckAux]
  | cons server rest ih =>
    intro st hl
    have hip : ip ≠ server.ip := Ne.symm (hl server (List.mem_cons_self server rest))
    obtain ⟨hf₁, hf₂, hf₃⟩ := healthStep_frame now connect st server ip hip
    obtain ⟨ih₁, ih₂, ih₃⟩ := ih (healthStep now connect st server).1
      (fun s hsmem => hl s (List.mem_cons_of_mem server hsmem))
    simp only [doHealthCheckAux]
    refine ⟨?_, ?_, ?_⟩
    · show lookupA ip (doHealthCheckAux now connect
          (healthStep now connect st server).1 rest).1.serverStatus =
        lookupA ip st.serverStatus
      rw [ih₁, hf₁]
    · show lookupA ip (doHealthCheckAux now connect
          (healthStep now connect st server).1 rest).1.pools = lookupA ip st.pools
      rw [ih₂, hf₂]
    · show ip ∉ (healthStep now connect st server).2 ++
        (doHealthCheckAux now connect (healthStep now connect st server).1 rest).2
      intro hmem
      rcases List.mem_append.mp hmem with hm | hm
      · exact hip (hf₃ ip hm)
      · exact ih₃ hm

theorem doHealthCheckAux_config (now : Nat) (connect : String → Option Nat) :
    ∀ (l : List Server) (st : PoolState),
      (doHealthCheckAux now connect st l).1.servers = st.servers ∧
      (doHealthCheckAux now connect st l).1.recoveryTime = st.recoveryTime ∧
      (doHealthCheckAux now connect st l).1.maxConnections = st.maxConnections := by
  intro l
  induction l with
  | nil =>
    intro st
    simp [doHealthCheckAux]
  | cons server rest ih =>
    intro st
    obtain ⟨hc₁, hc₂, hc₃⟩ := healthStep_config now connect st server
    obtain ⟨ih₁, ih₂, ih₃⟩ := ih (healthStep now connect st server).1
    simp only [doHealthCheckAux]
    exact ⟨by rw [ih₁, hc₁], by rw [ih₂, hc₂], by rw [ih₃, hc₃]⟩

theorem doHealthCheckAux_append (now : Nat) (connect : String → Option Nat) :
    ∀ (l₁ l₂ : List Server) (st : PoolState),
      doHealthCheckAux now connect st (l₁ ++ l₂) =
        ((doHealthCheckAux now connect (doHealthCheckAux now connect st l₁).1 l₂).1,
         (doHealthCheckAux now connect st l₁).2 ++
           (doHealthCheckAux now connect (doHealthCheckAux now connect st l₁).1 l₂).2) := by
  intro l₁
  induction l₁ with
  | nil =>
    intro l₂ st
    simp [doHealthCheckAux]
  | cons server rest ih =>
    intro l₂ st
    simp only [List.cons_append, doHealthCheckAux, List.append_eq]
    rw [ih l₂ (healthStep now connect st server).1]
    simp [List.append_assoc]

theorem doHealthCheck_localize (st : PoolState) (now : Nat)
    (connect : String → Option Nat)
    (hnodup : (st.servers.map Server.ip).Nodup) (s : Server) (hs : s ∈ st.servers) :
    lookupA s.ip (doHealthCheck st now connect).1.serverStatus =
      lookupA s.ip (healthStep now connect st s).1.serverStatus ∧
    lookupA s.ip (doHealthCheck st now connect).1.pools =
      lookupA s.ip (healthStep now connect st s).1.pools ∧
    (doHealthCheck st now connect).2.count s.ip =
      (healthStep now connect st s).2.count s.ip := by
  obtain ⟨l₁, l₂, hsplit⟩ := List.append_of_mem hs
  have hnd := hnodup
  rw [hsplit, List.map_append, List.map_cons] at hnd
  rw [List.nodup_append] at hnd
  obtain ⟨hnd₁, hnd₂, hdisj⟩ := hnd
  have h₁ : ∀ x ∈ l₁, x.ip ≠ s.ip := by
    intro x hx hxip
    have hmem₁ : x.ip ∈ l₁.map Server.ip := List.mem_map_of_mem Server.ip hx
    have := hdisj hmem₁
    rw [hxip] at this
    exact this (List.mem_cons_self s.ip (l₂.map Server.ip))
  have h₂ : ∀ x ∈ l₂, x.ip ≠ s.ip := by
    intro x hx hxip
    have hmem₂ : x.ip ∈ l₂.map Server.ip := List.mem_map_of_mem Server.ip hx
    rw [hxip] at hmem₂
    exact (List.nodup_cons.mp hnd₂).1 hmem₂
  have hdc : doHealthCheck st now connect = doHealthCheckAux now connect st st.servers :=
    rfl
  rw [hdc, hsplit, doHealthCheckAux_append now connect l₁ (s :: l₂) st]
  obtain ⟨hF₁, hF₂, hF₃⟩ := doHealthCheckAux_frame now connect s.ip l₁ st h₁
  obtain ⟨hC₁, hC₂, hC₃⟩ := doHealthCheckAux_config now connect l₁ st
  obtain ⟨hL₁, hL₂, hL₃⟩ := healthStep_local now connect s
    (doHealthCheckAux now connect st l₁).1 st hF₁ hF₂ hC₂ hC₃
  simp only [doHealthCheckAux]
  obtain ⟨hG₁, hG₂, hG₃⟩ := doHealthCheckAux_frame now connect s.ip l₂
    (healthStep now connect (doHealthCheckAux now connect st l₁).1 s).1 h₂
  refine ⟨?_, ?_, ?_⟩
  · show lookupA s.ip (doHealthCheckAux now connect
        (healthStep now connect (doHealthCheckAux now connect st l₁).1 s).1 l₂).1.serverStatus =
      lookupA s.ip (healthStep now connect st s).1.serverStatus
    rw [hG₁, hL₁]
  · show lookupA s.ip (doHealthCheckAux now connect
        (healthStep now connect (doHealthCheckAux now connect st l₁).1 s).1 l₂).1.pools =
      lookupA s.ip (healthStep now connect st s).1.pools
    rw [hG₂, hL₂]
  · show ((doHealthCheckAux now connect st l₁).2 ++
        ((healthStep now connect (doHealthCheckAux now connect st l₁).1 s).2 ++
          (doHealthCheckAux now connect
            (healthStep now connect (doHealthCheckAux now connect st l₁).1 s).1 l₂).2)).count
        s.ip = (healthStep now connect st s).2.count s.ip
    rw [List.count_append, List.count_append]
    rw [List.count_eq_zero.mpr hF₃, List.count_eq_zero.mpr hG₃, hL₃]
    omega

/-- C9: effect of one `_do_health_check` pass on each registered server
(distinct ips): an `UNHEALTHY` server past its cool-down gets exactly one
connection attempt — on success it is marked healthy (counter 0, success
stamp `now`, failure stamp kept) and the fresh connection is pushed into
its pool, on failure it is left unchanged; an `UNHEALTHY` server still
cooling down is untouched; a `HEALTHY` server whose pool holds fewer than
2 idle connections gets exactly one attempt — the fresh connection is
appended when the pool is below capacity and dropped when full, status
untouched; a `HEALTHY` server with 2 or more idle connections and an
`UNKNOWN` server get no attempt and are untouched. -/
theorem healthCheckMaintainerPass (st : PoolState) (now : Nat)
    (connect : String → Option Nat)
    (hnodup : (st.servers.map Server.ip).Nodup) (s : Server) (hs : s ∈ st.servers)
    (h : ServerHealth) (hl : lookupA s.ip st.serverStatus = some h) :
    (h.status = ServerStatus.unhealthy →
      (((st.recoveryTime : Int) ≤ (now : Int) - (h.lastFailTime : Int)) →
        (doHealthCheck st now connect).2.count s.ip = 1 ∧
        (∀ c, connect s.ip = some c →
          lookupA s.ip (doHealthCheck st now connect).1.serverStatus =
            some { h with status := ServerStatus.healthy, failCount := 0,
                          lastSuccessTime := now } ∧
          lookupA s.ip (doHealthCheck st now connect).1.pools =
            (lookupA s.ip st.pools).map (fun q => q ++ [PyVal.conn c])) ∧
        (connect s.ip = none →
          lookupA s.ip (doHealthCheck st now connect).1.serverStatus = some h ∧
          lookupA s.ip (doHealthCheck st now connect).1.pools =
            lookupA s.ip st.pools)) ∧
      (((now : Int) - (h.lastFailTime : Int) < (st.recoveryTime : Int)) →
        (doHealthCheck st now connect).2.count s.ip = 0 ∧
        lookupA s.ip (doHealthCheck st now connect).1.serverStatus = some h ∧
        lookupA s.ip (doHealthCheck st now connect).1.pools = lookupA s.ip st.pools)) ∧
    (h.status = ServerStatus.healthy →
      ∀ q, lookupA s.ip st.pools = some q →
        (q.length < 2 →
          (doHealthCheck st now connect).2.count s.ip = 1 ∧
          (∀ c, connect s.ip = some c →
            (queueFull st.maxConnections q.length = false →
              lookupA s.ip (doHealthCheck st now connect).1.pools =
                some (q ++ [PyVal.conn c]) ∧
              lookupA s.ip (doHealthCheck st now connect).1.serverStatus = some h) ∧
            (queueFull st.maxConnections q.length = true →
              lookupA s.ip (doHealthCheck st now connect).1.pools = some q ∧
              lookupA s.ip (doHealthCheck st now connect).1.serverStatus = some h)) ∧
          (connect s.ip = none →
            lookupA s.ip (doHealthCheck st now connect).1.pools = some q ∧
            lookupA s.ip (doHealthCheck st now connect).1.serverStatus = some h)) ∧
        (2 ≤ q.length →
          (doHealthCheck st now connect).2.count s.ip = 0 ∧
          lookupA s.ip (doHealthCheck st now connect).1.serverStatus = some h ∧
          lookupA s.ip (doHealthCheck st now connect).1.pools = some q)) ∧
    (h.status = ServerStatus.unknown →
      (doHealthCheck st now connect).2.count s.ip = 0 ∧
      lookupA s.ip (doHealthCheck st now connect).1.serverStatus = some h ∧
      lookupA s.ip (doHealthCheck st now connect).1.pools = lookupA s.ip st.pools) := by
  obtain ⟨hT₁, hT₂, hT₃⟩ := doHealthCheck_localize st now connect hnodup s hs
  rw [hT₁, hT₂, hT₃]
  refine ⟨fun hstat => ⟨fun hexp => ⟨?_, fun c hc => ?_, fun hc => ?_⟩,
      fun hcool => ?_⟩,
    fun hstat q hq => ⟨fun hlow => ⟨?_, fun c hc => ⟨fun hfull => ?_, fun hfull => ?_⟩,
        fun hc => ?_⟩,
      fun hhigh => ?_⟩,
    fun hstat => ?_⟩
  · cases hc : connect s.ip with
    | some c => simp [healthStep, hl, hstat, hexp, hc]
    | none => simp [healthStep, hl, hstat, hexp, hc]
  · simp [healthStep, hl, hstat, hexp, hc, markServerHealthy, lookupA_setAssoc_self]
  · simp [healthStep, hl, hstat, hexp, hc]
  · have hnexp : ¬((st.recoveryTime : Int) ≤ (now : Int) - (h.lastFailTime : Int)) := by
      omega
    simp [healthStep, hl, hstat, hnexp]
  · cases hc : connect s.ip with
    | some c =>
      by_cases hfull : queueFull st.maxConnections q.length = true
      · simp [healthStep, hl, hstat, hq, hlow, hc, hfull]
      · simp [healthStep, hl, hstat, hq, hlow, hc, hfull]
    | none => simp [healthStep, hl, hstat, hq, hlow, hc]
  · simp [healthStep, hl, hstat, hq, hlow, hc, hfull, lookupA_setAssoc_self]
  · simp [healthStep, hl, hstat, hq, hlow, hc, hfull]
  · simp [healthStep, hl, hstat, hq, hlow, hc]
  · have hnlow : ¬(q.length < 2) := by omega
    simp [healthStep, hl, hstat, hq, hnlow]
  · simp [healthStep, hl, hstat]

/-- C9 witness: at t=500 (cool-down over), the pass probes "a" exactly
once, recovers it and pre-warms its pool with the fresh connection. -/
theorem healthCheckMaintainerPass_witness :
    (doHealthCheck sampStHC 500 (fun _ => some 42)).2.count "a" = 1 ∧
    lookupA "a" (doHealthCheck sampStHC 500 (fun _ => some 42)).1.serverStatus =
      some ⟨ServerStatus.healthy, 0, 100, 500⟩ ∧
    lookupA "a" (doHealthCheck sampStHC 500 (fun _ => some 42)).1.pools =
      (lookupA "a" sampStHC.pools).map (fun q => q ++ [PyVal.conn 42]) := by
  have h := healthCheckMaintainerPass sampStHC 500 (fun _ => some 42) (by decide)
    sampA (by decide) sampUnhealthy rfl
  have h₁ := (h.1 rfl).1 (by decide)
  exact ⟨h₁.1, (h₁.2.1 42 rfl).1, (h₁.2.1 42 rfl).2⟩

/-! ### C1 — client facade execute/cleanup contract -/

/-- C1 (divergence evidence): `get_connection` yields the valid pooled
connection 7 for server "a", and `wOp` succeeds on that bare connection —
yet `_with_connection` returns `None`: `api` is bound to the `(api,
server)` tuple returned by `get_connection`, the `created = api is None`
flag is `false` (a tuple is never `None`, so the degraded one-shot branch
is dead), the wrapped operation receives the tuple and raises, and the
`finally` block hands the tuple itself to `return_connection`, which
queues it into the primary's pool. -/
theorem facadeTupleBug :
    (getConnection wFacadeState 0 (fun _ => true) (fun _ _ => none)).1 =
      some (PyVal.conn 7, sampA, false) ∧
    wOp (PyVal.conn 7) = Except.ok (PyVal.val 7) ∧
    (withConnection wFacadeState 0 (fun _ => true) (fun _ _ => none) none wOp).created =
      false ∧
    (withConnection wFacadeState 0 (fun _ => true) (fun _ _ => none) none wOp).result =
      none ∧
    (withConnection wFacadeState 0 (fun _ => true) (fun _ _ => none) none wOp).released =
      some (PyVal.tup (PyVal.conn 7) (PyVal.srv sampA)) ∧
    lookupA "a"
        (withConnection wFacadeState 0 (fun _ => true) (fun _ _ => none) none wOp).state.pools =
      some [PyVal.tup (PyVal.conn 7) (PyVal.srv sampA)] :=
  ⟨rfl, rfl, rfl, rfl, rfl, rfl⟩

end TdxMcp
